import Mathlib

/-!
# Verification of the farm-companion pipeline core

Shallow embedding of the concurrency/consistency core of the
`farm-pipeline` sources: the token-bucket rate limiter and its adaptive
variant (`src/utils/rate_limiter.py`), the retry executor
(`src/utils/retry.py`), and the Redis-backed state store and batch
workflow (`src/redis_storage.py`, `src/redis_description_workflow.py`).
Python floats are modelled as rationals, Python ints as integers,
Redis sets as finite sets of strings, and the wall clock as an explicit
rational parameter threaded through each operation.
-/

/-- Python `int(q)` truncation toward zero, as applied to a float. -/
def pyInt (q : ℚ) : ℤ := q.num.tdiv (q.den : ℤ)

/-! ## Token-bucket rate limiter (`RateLimiter`, rate_limiter.py lines 26-103) -/

/-- State of `RateLimiter`: `max_requests` and `burst_size` are Python ints,
`tokens` becomes a float after the first refill, `last_update` is a clock
reading (`time.time()`). -/
structure RateLimiter where
  max_requests : ℤ
  time_window : ℚ
  burst_size : ℤ
  tokens : ℚ
  last_update : ℚ
  deriving DecidableEq, Repr

/-- `RateLimiter.__init__`: `burst_size or max_requests` is Python truthiness,
so both `None` and `0` fall back to `max_requests`; the bucket starts full
(`tokens = burst_size`) at construction time `now`. -/
def RateLimiter.init (mr : ℤ) (tw : ℚ) (bs : Option ℤ) (now : ℚ) : RateLimiter :=
  let burst := match bs with
    | none => mr
    | some v => if v = 0 then mr else v
  { max_requests := mr, time_window := tw, burst_size := burst,
    tokens := (burst : ℚ), last_update := now }

/-- The refill step at the top of the `acquire` loop:
`tokens = min(burst_size, tokens + elapsed * max_requests / time_window)`
and `last_update = now`. -/
def RateLimiter.refill (s : RateLimiter) (now : ℚ) : RateLimiter :=
  let elapsed := now - s.last_update
  let fill := elapsed * ((s.max_requests : ℚ) / s.time_window)
  { s with tokens := min ((s.burst_size : ℚ)) (s.tokens + fill),
           last_update := now }

/-- Outcome of one iteration of the `acquire` loop: the call returns
(`ok`), sleeps for a computed wait time and loops (`wait`), or raises
`ZeroDivisionError` computing the wait time (`divErr`). -/
inductive AcquireOutcome where
  | ok (s : RateLimiter)
  | wait (s : RateLimiter) (waitTime : ℚ)
  | divErr
  deriving DecidableEq, Repr

/-- One iteration of `RateLimiter.acquire(tokens=n)` at clock reading `now`:
refill, return if `tokens >= n`, otherwise compute
`wait_time = (n - tokens) / max_requests * time_window` — which raises
`ZeroDivisionError` when `max_requests == 0` — and sleep. -/
def RateLimiter.acquireStep (s : RateLimiter) (n : ℚ) (now : ℚ) : AcquireOutcome :=
  let s' := s.refill now
  if n ≤ s'.tokens then
    .ok { s' with tokens := s'.tokens - n }
  else if s.max_requests = 0 then
    .divErr
  else
    .wait s' ((n - s'.tokens) / (s.max_requests : ℚ) * s.time_window)

/-- Result of running the `acquire` loop over a finite list of clock
readings (one reading per loop iteration): the call returned, raised
`ZeroDivisionError`, or is still waiting when the readings run out. -/
inductive AcquireRun where
  | ok (s : RateLimiter)
  | divErr
  | waiting (s : RateLimiter)
  deriving DecidableEq, Repr

/-- The `while True` loop of `acquire`, one clock reading per iteration. -/
def RateLimiter.acquireRun (s : RateLimiter) (n : ℚ) : List ℚ → AcquireRun
  | [] => .waiting s
  | t :: ts =>
    match s.acquireStep n t with
    | .ok s' => .ok s'
    | .divErr => .divErr
    | .wait s' _ => s'.acquireRun n ts

/-! ## Adaptive rate limiter (`AdaptiveRateLimiter`, rate_limiter.py lines 106-219) -/

/-- State of `AdaptiveRateLimiter`: the rates and factors are floats; the
wrapped `RateLimiter` is rebuilt from `int(current_rate)` on every
effective rate change. -/
structure AdaptiveRateLimiter where
  current_rate : ℚ
  min_rate : ℚ
  max_rate : ℚ
  increase_factor : ℚ
  decrease_factor : ℚ
  limiter : RateLimiter
  success_count : ℕ
  consecutive_successes : ℕ
  deriving DecidableEq, Repr

/-- `AdaptiveRateLimiter.__init__` at construction time `now`:
the wrapped limiter gets `max_requests=int(initial_rate)`,
`time_window=1.0`, `burst_size=int(initial_rate * 2)`. -/
def AdaptiveRateLimiter.init (initial mn mx inc dec : ℚ) (now : ℚ) :
    AdaptiveRateLimiter :=
  { current_rate := initial, min_rate := mn, max_rate := mx,
    increase_factor := inc, decrease_factor := dec,
    limiter := RateLimiter.init (pyInt initial) 1 (some (pyInt (initial * 2))) now,
    success_count := 0, consecutive_successes := 0 }

/-- `AdaptiveRateLimiter._update_limiter`: rebuild the wrapped limiter from
the current rate at clock reading `now`. -/
def AdaptiveRateLimiter.updateLimiter (a : AdaptiveRateLimiter) (now : ℚ) :
    AdaptiveRateLimiter :=
  { a with limiter :=
      RateLimiter.init (pyInt a.current_rate) 1 (some (pyInt (a.current_rate * 2))) now }

/-- `AdaptiveRateLimiter._increase_rate`:
`current_rate = min(max_rate, current_rate * increase_factor)`, rebuilding
the wrapped limiter only when the rate actually changed. -/
def AdaptiveRateLimiter.increaseRate (a : AdaptiveRateLimiter) (now : ℚ) :
    AdaptiveRateLimiter :=
  let newRate := min a.max_rate (a.current_rate * a.increase_factor)
  let a' := { a with current_rate := newRate }
  if newRate = a.current_rate then a' else a'.updateLimiter now

/-- `AdaptiveRateLimiter._decrease_rate`:
`current_rate = max(min_rate, current_rate * decrease_factor)`, rebuilding
the wrapped limiter only when the rate actually changed. -/
def AdaptiveRateLimiter.decreaseRate (a : AdaptiveRateLimiter) (now : ℚ) :
    AdaptiveRateLimiter :=
  let newRate := max a.min_rate (a.current_rate * a.decrease_factor)
  let a' := { a with current_rate := newRate }
  if newRate = a.current_rate then a' else a'.updateLimiter now

/-- `AdaptiveRateLimiter.on_success`: increment `consecutive_successes`;
at the threshold of 10, increase the rate and reset the counter to 0. -/
def AdaptiveRateLimiter.onSuccess (a : AdaptiveRateLimiter) (now : ℚ) :
    AdaptiveRateLimiter :=
  let a1 := { a with consecutive_successes := a.consecutive_successes + 1 }
  if 10 ≤ a1.consecutive_successes then
    { a1.increaseRate now with consecutive_successes := 0 }
  else a1

/-- `AdaptiveRateLimiter.on_rate_limit`: reset `consecutive_successes` to 0
and decrease the rate. -/
def AdaptiveRateLimiter.onRateLimit (a : AdaptiveRateLimiter) (now : ℚ) :
    AdaptiveRateLimiter :=
  ({ a with consecutive_successes := 0 }).decreaseRate now

/-- `k` consecutive `on_success` calls, all at clock reading `now`. -/
def AdaptiveRateLimiter.applySuccesses (a : AdaptiveRateLimiter) (now : ℚ) :
    ℕ → AdaptiveRateLimiter
  | 0 => a
  | k + 1 => (a.applySuccesses now k).onSuccess now

/-- `k` consecutive `on_rate_limit` calls, all at clock reading `now`. -/
def AdaptiveRateLimiter.applyRateLimits (a : AdaptiveRateLimiter) (now : ℚ) :
    ℕ → AdaptiveRateLimiter
  | 0 => a
  | k + 1 => (a.applyRateLimits now k).onRateLimit now

/-! ## Exponential backoff (`exponential_backoff`, retry.py lines 17-42) -/

/-- The pre-jitter delay `min(base_delay * 2 ** attempt, max_delay)`. -/
def preJitterDelay (attempt : ℕ) (base_delay max_delay : ℚ) : ℚ :=
  min (base_delay * 2 ^ attempt) max_delay

/-- The half-width of the jitter interval: `jitter_range = delay * 0.25`. -/
def jitterRange (delay : ℚ) : ℚ := delay * (25 / 100)

/-- `exponential_backoff` with `jitter=True`, with the value drawn by
`random.uniform(-jitter_range, jitter_range)` made an explicit parameter
`u`: the result is `max(0, delay + u)`. -/
def exponentialBackoff (attempt : ℕ) (base_delay max_delay u : ℚ) : ℚ :=
  max 0 (preJitterDelay attempt base_delay max_delay + u)

/-! ## Retry executor (`retry_async`, retry.py lines 45-110) -/

/-- Result of a `retry_async`-wrapped call: the wrapped operation's return
value or the exception the wrapper re-raises, each together with the number
of times the operation was invoked. `noAttempts` models `max_attempts = 0`,
where the loop body never runs and `raise last_exception` re-raises `None`. -/
inductive RetryResult (ε α : Type) where
  | ok (a : α) (calls : ℕ)
  | err (e : ε) (calls : ℕ)
  | noAttempts
  deriving DecidableEq, Repr

/-- The `for attempt in range(max_attempts)` loop of `retry_async.wrapper`,
starting at index `attempt` with `remaining` indices left
(`attempt + remaining = max_attempts`). The operation is a function of the
attempt index returning either a value or a raised error; `retryable`
is membership of the error's type in the `exceptions` tuple. An error that
is not retryable propagates uncaught; a retryable error on the last index
(`attempt == max_attempts - 1`) is re-raised. -/
def retryFrom (op : ℕ → Except ε α) (retryable : ε → Bool) :
    (attempt remaining : ℕ) → RetryResult ε α
  | _, 0 => .noAttempts
  | attempt, remaining + 1 =>
    match op attempt with
    | .ok a => .ok a (attempt + 1)
    | .error e =>
      if retryable e then
        if remaining = 0 then .err e (attempt + 1)
        else retryFrom op retryable (attempt + 1) remaining
      else .err e (attempt + 1)

/-- `retry_async(max_attempts)(op)` applied to one call of the wraper. -/
def retryAsync (op : ℕ → Except ε α) (retryable : ε → Bool)
    (maxAttempts : ℕ) : RetryResult ε α :=
  retryFrom op retryable 0 maxAttempts

/-! ## State store (`FarmStorage`, redis_storage.py) -/

/-- One record of the imported snapshot (`dist/farms.uk.json`): the fields
`save_farms_batch` inspects. `id` is `farm.get('id')` (`none` when the key
is missing or falsy), `description` is `farm.get('description')` (`none`
when absent), `website` is `farm.get('contact', {}).get('website', '')`
(`none` when the key chain is absent, standing for the default `''`). -/
structure FarmRecord where
  id : Option String
  description : Option String
  website : Option String
  deriving DecidableEq, Repr

/-- Truthiness of `farm.get('description')`: present and non-empty. -/
def FarmRecord.hasDescription (f : FarmRecord) : Bool :=
  match f.description with
  | some d => d ≠ ""
  | none => false

/-- The id as tested by `if not farm_id:` — a missing id and the falsy
empty string are both skipped. -/
def FarmRecord.getId (f : FarmRecord) : Option String :=
  match f.id with
  | some i => if i = "" then none else some i
  | none => none

/-- The filter on line 76/110 of redis_storage.py:
`website and not any(social in website.lower() for social in
['facebook', 'instagram', 'twitter'])`. -/
def usableWebsite (w : String) : Bool :=
  w ≠ "" &&
    !(["facebook", "instagram", "twitter"].any
        (fun social => (w.toLower).containsSubstr social.toSubstring))

/-- Redis state visible to `FarmStorage`: the four `farms:*` sets plus the
per-farm hash fields `update_farm_description` and `save_farms_batch`
touch (`description`, `updatedAt` of the `farm:{id}` hashes). -/
structure StoreState where
  allSet : Finset String
  processed : Finset String
  failed : Finset String
  needsDesc : Finset String
  descField : String → Option String
  updatedAtField : String → Option ℚ

/-- The empty Redis database. -/
def StoreState.empty : StoreState :=
  { allSet := ∅, processed := ∅, failed := ∅, needsDesc := ∅,
    descField := fun _ => none, updatedAtField := fun _ => none }

/-- `FarmStorage.clear_all_data`: deletes every key matching `farms:*` —
the four index sets — but not the `farm:{id}` data hashes, whose keys do
not match the pattern. -/
def StoreState.clearAllData (s : StoreState) : StoreState :=
  { s with allSet := ∅, processed := ∅, failed := ∅, needsDesc := ∅ }

/-- The per-farm body of the `save_farms_batch` loop: skip records without
an id; `hset` the hash fields (a merge: fields absent from the record keep
their stored value), `sadd` the id to `farms:all`, then to
`farms:processed` when the record carries a description, otherwise to
`farms:needs_description` when the website is usable — and to no index set
at all when it is not. -/
def StoreState.saveOne (s : StoreState) (f : FarmRecord) : StoreState :=
  match f.getId with
  | none => s
  | some fid =>
    { s with
      allSet := insert fid s.allSet,
      descField := fun k =>
        if k = fid then
          match f.description with
          | some d => some d
          | none => s.descField k
        else s.descField k,
      processed := if f.hasDescription then insert fid s.processed else s.processed,
      needsDesc :=
        if f.hasDescription then s.needsDesc
        else if usableWebsite (f.website.getD "") then insert fid s.needsDesc
        else s.needsDesc }

/-- `FarmStorage.save_farms_batch` (state effect): the queued `hset`/`sadd`
commands for each farm in order, executed in one pipeline. -/
def StoreState.saveFarmsBatch (s : StoreState) (farms : List FarmRecord) :
    StoreState :=
  farms.foldl StoreState.saveOne s

/-- `FarmStorage.import_from_json` on a readable file parsed to `farms`:
`clear_all_data` then `save_farms_batch`. -/
def StoreState.importFromJson (s : StoreState) (farms : List FarmRecord) :
    StoreState :=
  s.clearAllData.saveFarmsBatch farms

/-- The four counts of `FarmStorage.get_pipeline_status`:
`scard` of `farms:all`, `farms:processed`, `farms:failed`,
`farms:needs_description`. -/
structure PipelineCounts where
  total_farms : ℕ
  processed_farms : ℕ
  failed_farms : ℕ
  needs_description : ℕ
  deriving DecidableEq, Repr

/-- `FarmStorage.get_pipeline_status`, its count fields. -/
def StoreState.getPipelineStatus (s : StoreState) : PipelineCounts :=
  { total_farms := s.allSet.card, processed_farms := s.processed.card,
    failed_farms := s.failed.card, needs_description := s.needsDesc.card }

/-- `FarmStorage.update_farm_description(farm_id, description)` at clock
reading `now`: unconditionally `hset` the description and `updatedAt`
fields, `sadd` the id to `farms:processed`, `srem` it from
`farms:needs_description`, in one pipeline; returns `True` (the Boolean). -/
def StoreState.updateFarmDescription (s : StoreState) (fid : String)
    (d : String) (now : ℚ) : Bool × StoreState :=
  (true,
   { s with
     descField := fun k => if k = fid then some d else s.descField k,
     updatedAtField := fun k => if k = fid then some now else s.updatedAtField k,
     processed := insert fid s.processed,
     needsDesc := s.needsDesc.erase fid })

/-! ## Batch workflow (`process_farm_batch`, redis_description_workflow.py
lines 191-252) -/

/-- The externally determined outcome of processing one farm: scraping
failed, scraping succeeded but description generation failed, or both
succeeded producing a description. -/
inductive ItemOutcome where
  | scrapeFailed
  | genFailed
  | genOk (desc : String)
  deriving DecidableEq, Repr

/-- The per-item body of `process_farm_batch`: on a successful scrape and
generation, `update_farm_description` is called and the success/failure
counter incremented by its Boolean result; on a scrape or generation
failure the failure counter is incremented and the store is not touched.
Returns `(success, failed)` increments with the new store state. -/
def processOneFarm (s : StoreState) (fid : String) (o : ItemOutcome)
    (now : ℚ) : (ℕ × ℕ) × StoreState :=
  match o with
  | .scrapeFailed => ((0, 1), s)
  | .genFailed => ((0, 1), s)
  | .genOk d =>
    let (okFlag, s') := s.updateFarmDescription fid d now
    if okFlag then ((1, 0), s') else ((0, 1), s')

/-- One fold step of the batch loop: run the per-item body on the current
store and add its `(success, failed)` increments to the accumulated
`batch_results`. -/
def batchStep (now : ℚ) (acc : (ℕ × ℕ) × StoreState)
    (item : String × ItemOutcome) : (ℕ × ℕ) × StoreState :=
  let r := processOneFarm acc.2 item.1 item.2 now
  ((acc.1.1 + r.1.1, acc.1.2 + r.1.2), r.2)

/-- `process_farm_batch` over a list of items, each an id paired with its
external outcome, all at clock reading `now`: accumulates
`batch_results = {'success': …, 'failed': …}` and the store state. The
function is total — an individual item's failure increments a counter and
never raises. -/
def processFarmBatch (s : StoreState) (items : List (String × ItemOutcome))
    (now : ℚ) : (ℕ × ℕ) × StoreState :=
  items.foldl (batchStep now) ((0, 0), s)

/-! ## Auxiliary observation functions used by the theorems -/

/-- A list of clock readings starting no earlier than `t0` and
non-decreasing — the readings successive `time.time()` calls can return. -/
def chronological (t0 : ℚ) : List ℚ → Bool
  | [] => true
  | t :: ts => decide (t0 ≤ t) && chronological t ts

/-- The limiter states reached by the `acquire` loop over a list of clock
readings: for each iteration, the post-refill state and — when the request
is granted — the post-decrement state. -/
def RateLimiter.acquireStates (s : RateLimiter) (n : ℚ) :
    List ℚ → List RateLimiter
  | [] => []
  | t :: ts =>
    match s.acquireStep n t with
    | .ok s' => [s.refill t, s']
    | .divErr => [s.refill t]
    | .wait s' _ => s.refill t :: s'.acquireStates n ts

/-- An item outcome in which generation succeeded (the only case in which
`process_farm_batch` counts the item as a success). -/
def ItemOutcome.isSuccess : ItemOutcome → Bool
  | .genOk _ => true
  | _ => false

/-- The four Redis index sets of a store state, the data
`get_pipeline_status` reads. -/
def StoreState.sets (s : StoreState) :
    Finset String × Finset String × Finset String × Finset String :=
  (s.allSet, s.processed, s.failed, s.needsDesc)

/-- A snapshot record with neither a description nor a usable website —
the inconsistent record of claim C1. -/
def inconsistentRecord : FarmRecord :=
  { id := some "f1", description := none, website := none }

/-- A five-farm snapshot, each farm with a usable website and no
description, so that import places all five in `farms:needs_description`. -/
def demoFarms : List FarmRecord :=
  ["f1", "f2", "f3", "f4", "f5"].map
    (fun i => { id := some i, description := none, website := some ("http://" ++ i) })

/-- The store after importing `demoFarms` into an empty database. -/
def demoStore : StoreState := StoreState.empty.importFromJson demoFarms

/-- The batch of claim C6: five items, item 3's scrape fails permanently,
the other four succeed. -/
def demoItems : List (String × ItemOutcome) :=
  [("f1", .genOk "d1"), ("f2", .genOk "d2"), ("f3", .scrapeFailed),
   ("f4", .genOk "d4"), ("f5", .genOk "d5")]

/-! # Theorems -/

/-- C8: for every attempt number and every jitter draw `u` within
`±25%` of the pre-jitter delay, the backoff delay returned by
`exponential_backoff` lies within `base_delay * 2 ^ attempt * (1 ± 1/4)`
clamped to `[0, max_delay * (1 + 1/4)]`, and the pre-jitter delay
`min(base_delay * 2 ^ attempt, max_delay)` is non-decreasing in the
attempt number. -/
theorem exponentialBackoff_bounds (attempt : ℕ) (b M u : ℚ)
    (hb : 0 ≤ b) (hM : 0 ≤ M)
    (hu_lo : -(jitterRange (preJitterDelay attempt b M)) ≤ u)
    (hu_hi : u ≤ jitterRange (preJitterDelay attempt b M)) :
    (1 - 1/4) * preJitterDelay attempt b M ≤ exponentialBackoff attempt b M u ∧
    exponentialBackoff attempt b M u ≤ (1 + 1/4) * preJitterDelay attempt b M ∧
    0 ≤ exponentialBackoff attempt b M u ∧
    exponentialBackoff attempt b M u ≤ (1 + 1/4) * M ∧
    exponentialBackoff attempt b M u ≤ (1 + 1/4) * (b * 2 ^ attempt) ∧
    preJitterDelay attempt b M ≤ preJitterDelay (attempt + 1) b M := by
  have hd0 : (0 : ℚ) ≤ preJitterDelay attempt b M :=
    le_min (by positivity) hM
  have hdb : preJitterDelay attempt b M ≤ b * 2 ^ attempt := min_le_left _ _
  have hdM : preJitterDelay attempt b M ≤ M := min_le_right _ _
  have hjr : jitterRange (preJitterDelay attempt b M)
      = preJitterDelay attempt b M * (25 / 100) := rfl
  rw [hjr] at hu_lo hu_hi
  have hsum : (0 : ℚ) ≤ preJitterDelay attempt b M + u := by linarith
  have hEB : exponentialBackoff attempt b M u
      = preJitterDelay attempt b M + u := max_eq_right hsum
  refine ⟨?_, ?_, ?_, ?_, ?_, ?_⟩
  · rw [hEB]; linarith
  · rw [hEB]; linarith
  · rw [hEB]; linarith
  · rw [hEB]; linarith
  · rw [hEB]; linarith
  · have h2 : b * 2 ^ attempt ≤ b * 2 ^ (attempt + 1) := by
      have hp : (0 : ℚ) ≤ b * 2 ^ attempt := by positivity
      rw [pow_succ]
      nlinarith
    exact min_le_min h2 le_rfl

/-- Witness for C8 at `attempt = 1`, `base_delay = 1`, `max_delay = 60`,
`u = 1/4`. -/
theorem exponentialBackoff_bounds_witness :
    ((0 : ℚ) ≤ 1) ∧ ((0 : ℚ) ≤ 60) ∧
    (-(jitterRange (preJitterDelay 1 1 60)) ≤ (1/4 : ℚ)) ∧
    ((1/4 : ℚ) ≤ jitterRange (preJitterDelay 1 1 60)) ∧
    ((1 - 1/4) * preJitterDelay 1 1 60 ≤ exponentialBackoff 1 1 60 (1/4) ∧
     exponentialBackoff 1 1 60 (1/4) ≤ (1 + 1/4) * preJitterDelay 1 1 60 ∧
     0 ≤ exponentialBackoff 1 1 60 (1/4) ∧
     exponentialBackoff 1 1 60 (1/4) ≤ (1 + 1/4) * 60 ∧
     exponentialBackoff 1 1 60 (1/4) ≤ (1 + 1/4) * (1 * 2 ^ 1) ∧
     preJitterDelay 1 1 60 ≤ preJitterDelay (1 + 1) 1 60) :=
  ⟨by norm_num, by norm_num,
   by norm_num [jitterRange, preJitterDelay],
   by norm_num [jitterRange, preJitterDelay],
   exponentialBackoff_bounds 1 1 60 (1/4) (by norm_num) (by norm_num)
     (by norm_num [jitterRange, preJitterDelay])
     (by norm_num [jitterRange, preJitterDelay])⟩

/-- Helper: when every attempt below `attempt + remaining` from `attempt`
on raises a retryable error, the retry loop re-raises the error of the
last attempt after making all the remaining invocations. -/
theorem retryFrom_all_fail {ε α : Type} (op : ℕ → Except ε α)
    (r : ε → Bool) (es : ℕ → ε) :
    ∀ remaining attempt, 1 ≤ remaining →
    (∀ i, attempt ≤ i → i < attempt + remaining →
      op i = .error (es i) ∧ r (es i) = true) →
    retryFrom op r attempt remaining
      = .err (es (attempt + remaining - 1)) (attempt + remaining) := by
  intro remaining
  induction remaining with
  | zero => intro attempt h; omega
  | succ k ih =>
    intro attempt _ hall
    have h0 : op attempt = .error (es attempt) ∧ r (es attempt) = true :=
      hall attempt le_rfl (by omega)
    rcases k.eq_zero_or_pos with hk | hk
    · subst hk
      simp [retryFrom, h0.1, h0.2]
    · have hrec := ih (attempt + 1) hk
        (fun i hi1 hi2 => hall i (by omega) (by omega))
      have hk0 : k ≠ 0 := by omega
      simp only [retryFrom, h0.1, h0.2, if_true, hk0, if_false]
      have e1 : attempt + 1 + k - 1 = attempt + (k + 1) - 1 := by omega
      have e2 : attempt + 1 + k = attempt + (k + 1) := by omega
      rw [hrec, e1, e2]

/-- C5: for `max_attempts = 3` and an operation raising a retryable error
on its first two invocations and returning a value on the third, the
wrapped call returns that value after exactly 3 invocations; an error the
`exceptions` tuple does not cover propagates after exactly one invocation;
and when every one of the `max_attempts` invocations raises a retryable
error, the last observed error is re-raised after exactly `max_attempts`
invocations. -/
theorem retry_async_spec {ε α : Type} (retryable : ε → Bool) :
    (∀ (op : ℕ → Except ε α) (v : α) (e0 e1 : ε),
        op 0 = .error e0 → op 1 = .error e1 → op 2 = .ok v →
        retryable e0 = true → retryable e1 = true →
        retryAsync op retryable 3 = .ok v 3) ∧
    (∀ (op : ℕ → Except ε α) (e : ε) (m : ℕ),
        op 0 = .error e → retryable e = false → 1 ≤ m →
        retryAsync op retryable m = .err e 1) ∧
    (∀ (op : ℕ → Except ε α) (m : ℕ) (es : ℕ → ε),
        1 ≤ m →
        (∀ i, i < m → op i = .error (es i) ∧ retryable (es i) = true) →
        retryAsync op retryable m = .err (es (m - 1)) m) := by
  refine ⟨?_, ?_, ?_⟩
  · intro op v e0 e1 h0 h1 h2 hr0 hr1
    simp [retryAsync, retryFrom, h0, h1, h2, hr0, hr1]
  · intro op e m h0 hr hm
    obtain ⟨k, rfl⟩ := Nat.exists_eq_add_of_le' hm
    simp [retryAsync, retryFrom, h0, hr]
  · intro op m es hm hall
    have := retryFrom_all_fail op retryable es m 0 hm
      (fun i _ hi => hall i (by omega))
    simpa using this

/-- Witness for C5: a concrete operation over `ε = α = ℕ` that fails with
error `7` on attempts 0 and 1 and returns `42` on attempt 2, everything
retryable; a non-retryable first error; and three retryable failures. -/
theorem retry_async_spec_witness :
    (retryAsync (fun i => if i < 2 then Except.error 7 else Except.ok 42)
        (fun _ => true) 3 = .ok 42 3) ∧
    (retryAsync (fun _ => (Except.error 7 : Except ℕ ℕ))
        (fun _ => false) 3 = .err 7 1) ∧
    (retryAsync (fun _ => (Except.error 7 : Except ℕ ℕ))
        (fun _ => true) 3 = .err 7 3) :=
  ⟨(retry_async_spec (fun _ => true)).1
      (fun i => if i < 2 then Except.error 7 else Except.ok 42) 42 7 7
      rfl rfl rfl rfl rfl,
   (retry_async_spec (fun _ => false)).2.1
      (fun _ => Except.error 7) 7 3 rfl rfl (by norm_num),
   (retry_async_spec (fun _ => true)).2.2
      (fun _ => Except.error 7) 3 (fun _ => 7) (by norm_num)
      (fun i _ => ⟨rfl, rfl⟩)⟩

/-- Helper: the `acquire` loop on an empty list of clock readings is still
waiting. -/
theorem acquireRun_nil (s : RateLimiter) (n : ℚ) :
    s.acquireRun n [] = .waiting s := rfl

/-- Helper: when the first iteration sleeps, the loop continues from the
refilled state on the remaining clock readings. -/
theorem acquireRun_cons_wait (s s' : RateLimiter) (n w t : ℚ) (ts : List ℚ)
    (h : s.acquireStep n t = .wait s' w) :
    s.acquireRun n (t :: ts) = s'.acquireRun n ts := by
  have he : s.acquireRun n (t :: ts)
      = match s.acquireStep n t with
        | .ok s'' => AcquireRun.ok s''
        | .divErr => AcquireRun.divErr
        | .wait s'' _ => s''.acquireRun n ts := rfl
  rw [he, h]

/-- Helper: when the first iteration is granted, the loop returns. -/
theorem acquireRun_cons_ok (s s' : RateLimiter) (n t : ℚ) (ts : List ℚ)
    (h : s.acquireStep n t = .ok s') :
    s.acquireRun n (t :: ts) = .ok s' := by
  have he : s.acquireRun n (t :: ts)
      = match s.acquireStep n t with
        | .ok s'' => AcquireRun.ok s''
        | .divErr => AcquireRun.divErr
        | .wait s'' _ => s''.acquireRun n ts := rfl
  rw [he, h]

/-- Helper: when the first iteration raises `ZeroDivisionError`, so does
the loop. -/
theorem acquireRun_cons_divErr (s : RateLimiter) (n t : ℚ) (ts : List ℚ)
    (h : s.acquireStep n t = .divErr) :
    s.acquireRun n (t :: ts) = .divErr := by
  have he : s.acquireRun n (t :: ts)
      = match s.acquireStep n t with
        | .ok s'' => AcquireRun.ok s''
        | .divErr => AcquireRun.divErr
        | .wait s'' _ => s''.acquireRun n ts := rfl
  rw [he, h]

/-- Helper: the limiter of the C3 scenario as a plain record. -/
theorem demoLimiter_init :
    RateLimiter.init 10 1 (some 20) 0 = ⟨10, 1, 20, 20, 0⟩ := by
  simp [RateLimiter.init]

/-- Helper: refilling the full 20-token bucket at a later clock reading
leaves it full. -/
theorem demoLimiter_refill (t t' : ℚ) (htt : t ≤ t') :
    RateLimiter.refill ⟨10, 1, 20, 20, t⟩ t' = ⟨10, 1, 20, 20, t'⟩ := by
  simp only [RateLimiter.refill]
  congr 1
  push_cast
  rw [min_eq_left]
  nlinarith

/-- Helper: `acquire(21)` on the full 20-token bucket sleeps for
`(21 - 20) / 10 * 1 = 1/10` seconds and loops. -/
theorem demoLimiter_step (t t' : ℚ) (htt : t ≤ t') :
    RateLimiter.acquireStep ⟨10, 1, 20, 20, t⟩ 21 t'
      = .wait ⟨10, 1, 20, 20, t'⟩ (1/10) := by
  simp only [RateLimiter.acquireStep, demoLimiter_refill t t' htt]
  norm_num

/-- C3 counterexample: on the limiter `RateLimiter(max_requests=10,
time_window=1.0, burst_size=20)`, `acquire(21)` raises no error at all:
after three loop iterations (clock readings 0, 1, 2) the call is still
waiting — refuting that a request above the burst size fails fast with an
InvalidRequest error. -/
theorem acquire_over_burst_counterexample :
    RateLimiter.acquireRun (RateLimiter.init 10 1 (some 20) 0) 21 [0, 1, 2]
      = .waiting ⟨10, 1, 20, 20, 2⟩ := by
  rw [demoLimiter_init]
  rw [acquireRun_cons_wait _ _ _ _ _ _ (demoLimiter_step 0 0 le_rfl)]
  rw [acquireRun_cons_wait _ _ _ _ _ _ (demoLimiter_step 0 1 (by norm_num))]
  rw [acquireRun_cons_wait _ _ _ _ _ _ (demoLimiter_step 1 2 (by norm_num))]
  exact acquireRun_nil _ _

/-- C3 amended: a call `acquire(n)` with `n` above the burst size never
fails and never succeeds — every iteration of the loop refills to at most
`burst_size < n` tokens and sleeps again, for every sequence of clock
readings (the call blocks forever instead of failing fast). -/
theorem acquire_over_burst_never_succeeds (s : RateLimiter) (n : ℚ)
    (hn : (s.burst_size : ℚ) < n) (hmr : s.max_requests ≠ 0)
    (ht : s.tokens ≤ (s.burst_size : ℚ)) :
    ∀ ts : List ℚ, ∃ s', s.acquireRun n ts = .waiting s' := by
  intro ts
  induction ts generalizing s with
  | nil => exact ⟨s, rfl⟩
  | cons t ts ih =>
    have hrb : (s.refill t).burst_size = s.burst_size := rfl
    have hrm : (s.refill t).max_requests = s.max_requests := rfl
    have htok : (s.refill t).tokens ≤ (s.burst_size : ℚ) := by
      simp only [RateLimiter.refill]
      exact min_le_left _ _
    have hlt : ¬ (n ≤ (s.refill t).tokens) :=
      not_le.mpr (lt_of_le_of_lt htok hn)
    have hstep : s.acquireStep n t
        = .wait (s.refill t)
            ((n - (s.refill t).tokens) / (s.max_requests : ℚ) * s.time_window) := by
      simp only [RateLimiter.acquireStep, if_neg hlt, if_neg hmr]
    obtain ⟨s', h⟩ := ih (s.refill t) (hrb ▸ hn) (hrm ▸ hmr) (hrb ▸ htok)
    refine ⟨s', ?_⟩
    rw [acquireRun_cons_wait _ _ _ _ _ _ hstep]
    exact h

/-- Witness for the amended C3 on a concrete limiter, request and clock
list. -/
theorem acquire_over_burst_never_succeeds_witness :
    (((RateLimiter.init 10 1 (some 20) 0).burst_size : ℚ) < 21) ∧
    ((RateLimiter.init 10 1 (some 20) 0).max_requests ≠ 0) ∧
    ((RateLimiter.init 10 1 (some 20) 0).tokens
      ≤ ((RateLimiter.init 10 1 (some 20) 0).burst_size : ℚ)) ∧
    (∃ s', (RateLimiter.init 10 1 (some 20) 0).acquireRun 21 [0, 1]
      = .waiting s') :=
  ⟨by norm_num [RateLimiter.init], by norm_num [RateLimiter.init],
   by norm_num [RateLimiter.init],
   acquire_over_burst_never_succeeds (RateLimiter.init 10 1 (some 20) 0) 21
     (by norm_num [RateLimiter.init]) (by norm_num [RateLimiter.init])
     (by norm_num [RateLimiter.init]) [0, 1]⟩

/-- Helper: the state trace of the loop on no clock readings is empty. -/
theorem acquireStates_nil (s : RateLimiter) (n : ℚ) :
    s.acquireStates n [] = [] := rfl

/-- Helper: a granted first iteration contributes the refilled and the
decremented state. -/
theorem acquireStates_cons_ok (s s' : RateLimiter) (n t : ℚ) (ts : List ℚ)
    (h : s.acquireStep n t = .ok s') :
    s.acquireStates n (t :: ts) = [s.refill t, s'] := by
  have he : s.acquireStates n (t :: ts)
      = match s.acquireStep n t with
        | .ok s'' => [s.refill t, s'']
        | .divErr => [s.refill t]
        | .wait s'' _ => s.refill t :: s''.acquireStates n ts := rfl
  rw [he, h]

/-- Helper: a sleeping first iteration contributes the refilled state and
recurses. -/
theorem acquireStates_cons_wait (s s' : RateLimiter) (n w t : ℚ)
    (ts : List ℚ) (h : s.acquireStep n t = .wait s' w) :
    s.acquireStates n (t :: ts) = s.refill t :: s'.acquireStates n ts := by
  have he : s.acquireStates n (t :: ts)
      = match s.acquireStep n t with
        | .ok s'' => [s.refill t, s'']
        | .divErr => [s.refill t]
        | .wait s'' _ => s.refill t :: s''.acquireStates n ts := rfl
  rw [he, h]

/-- C4: for a validly configured limiter (positive `max_requests` and
`time_window`, `burst_size ≥ max_requests`), a request `0 < n ≤
burst_size`, a token count within bounds, and non-decreasing clock
readings, every state the `acquire` loop reaches — after each refill and
after each decrement — satisfies `0 ≤ tokens ≤ burst_size`. -/
theorem rate_limiter_token_bounds (s : RateLimiter) (n : ℚ) (ts : List ℚ)
    (hmr : 0 < s.max_requests) (htw : 0 < s.time_window)
    (hbm : s.max_requests ≤ s.burst_size)
    (h0 : 0 ≤ s.tokens) (h1 : s.tokens ≤ (s.burst_size : ℚ))
    (hn0 : 0 < n) (hn : n ≤ (s.burst_size : ℚ))
    (hts : chronological s.last_update ts = true) :
    ∀ s' ∈ s.acquireStates n ts,
      0 ≤ s'.tokens ∧ s'.tokens ≤ (s'.burst_size : ℚ) := by
  induction ts generalizing s with
  | nil =>
    intro s' hs'
    rw [acquireStates_nil] at hs'
    simp at hs'
  | cons t ts ih =>
    simp only [chronological, Bool.and_eq_true, decide_eq_true_eq] at hts
    obtain ⟨hle, hts'⟩ := hts
    have hmrq : (0 : ℚ) < (s.max_requests : ℚ) := by exact_mod_cast hmr
    have hrt : (s.refill t).tokens
        = min ((s.burst_size : ℚ))
            (s.tokens + (t - s.last_update) * ((s.max_requests : ℚ) / s.time_window)) :=
      rfl
    have hfill : 0 ≤ (t - s.last_update) * ((s.max_requests : ℚ) / s.time_window) := by
      apply mul_nonneg (by linarith)
      positivity
    have hb0 : (0 : ℚ) ≤ (s.burst_size : ℚ) := by
      have : (0 : ℤ) ≤ s.burst_size := le_of_lt (lt_of_lt_of_le hmr hbm)
      exact_mod_cast this
    have hr0 : 0 ≤ (s.refill t).tokens := by
      rw [hrt]; exact le_min hb0 (by linarith)
    have hr1 : (s.refill t).tokens ≤ ((s.burst_size : ℚ)) := by
      rw [hrt]; exact min_le_left _ _
    by_cases hco : n ≤ (s.refill t).tokens
    · have hstep : s.acquireStep n t
          = .ok { s.refill t with tokens := (s.refill t).tokens - n } := by
        simp only [RateLimiter.acquireStep, if_pos hco]
      rw [acquireStates_cons_ok _ _ _ _ _ hstep]
      intro s' hs'
      rcases List.mem_pair.mp hs' with h | h <;> subst h
      · exact ⟨hr0, hr1⟩
      · constructor
        · show (0 : ℚ) ≤ (s.refill t).tokens - n
          linarith
        · show (s.refill t).tokens - n ≤ ((s.burst_size : ℚ))
          linarith
    · have hmr0 : ¬ (s.max_requests = 0) := by omega
      have hstep : s.acquireStep n t
          = .wait (s.refill t)
              ((n - (s.refill t).tokens) / (s.max_requests : ℚ) * s.time_window) := by
        simp only [RateLimiter.acquireStep, if_neg hco, if_neg hmr0]
      rw [acquireStates_cons_wait _ _ _ _ _ _ hstep]
      intro s' hs'
      rcases List.mem_cons.mp hs' with h | h
      · subst h; exact ⟨hr0, hr1⟩
      · exact ih (s.refill t) hmr htw hbm hr0 hr1 hn hts' s' h

/-- Witness for C4 on the limiter `RateLimiter(10, 1.0, 20)`, a request
of one token and two clock readings. -/
theorem rate_limiter_token_bounds_witness :
    (0 < (RateLimiter.init 10 1 (some 20) 0).max_requests) ∧
    (0 < (RateLimiter.init 10 1 (some 20) 0).time_window) ∧
    ((RateLimiter.init 10 1 (some 20) 0).max_requests
      ≤ (RateLimiter.init 10 1 (some 20) 0).burst_size) ∧
    (0 ≤ (RateLimiter.init 10 1 (some 20) 0).tokens) ∧
    ((RateLimiter.init 10 1 (some 20) 0).tokens
      ≤ ((RateLimiter.init 10 1 (some 20) 0).burst_size : ℚ)) ∧
    ((0 : ℚ) < 1) ∧
    ((1 : ℚ) ≤ ((RateLimiter.init 10 1 (some 20) 0).burst_size : ℚ)) ∧
    (chronological (RateLimiter.init 10 1 (some 20) 0).last_update [0, 1] = true) ∧
    (∀ s' ∈ (RateLimiter.init 10 1 (some 20) 0).acquireStates 1 [0, 1],
      0 ≤ s'.tokens ∧ s'.tokens ≤ (s'.burst_size : ℚ)) :=
  ⟨by norm_num [RateLimiter.init], by norm_num [RateLimiter.init],
   by norm_num [RateLimiter.init], by norm_num [RateLimiter.init],
   by norm_num [RateLimiter.init], by norm_num,
   by norm_num [RateLimiter.init],
   by norm_num [RateLimiter.init, chronological],
   rate_limiter_token_bounds (RateLimiter.init 10 1 (some 20) 0) 1 [0, 1]
     (by norm_num [RateLimiter.init]) (by norm_num [RateLimiter.init])
     (by norm_num [RateLimiter.init]) (by norm_num [RateLimiter.init])
     (by norm_num [RateLimiter.init]) (by norm_num)
     (by norm_num [RateLimiter.init])
     (by norm_num [RateLimiter.init, chronological])⟩

/-- Helper: `_increase_rate` sets the rate to
`min(max_rate, current_rate * increase_factor)` whether or not the
wrapped limiter is rebuilt. -/
theorem increaseRate_rate (a : AdaptiveRateLimiter) (now : ℚ) :
    (a.increaseRate now).current_rate
      = min a.max_rate (a.current_rate * a.increase_factor) := by
  simp only [AdaptiveRateLimiter.increaseRate, AdaptiveRateLimiter.updateLimiter]
  split <;> rfl

/-- Helper: `_increase_rate` does not touch the success counter. -/
theorem increaseRate_counter (a : AdaptiveRateLimiter) (now : ℚ) :
    (a.increaseRate now).consecutive_successes = a.consecutive_successes := by
  simp only [AdaptiveRateLimiter.increaseRate, AdaptiveRateLimiter.updateLimiter]
  split <;> rfl

/-- Helper: `_decrease_rate` sets the rate to
`max(min_rate, current_rate * decrease_factor)` whether or not the
wrapped limiter is rebuilt. -/
theorem decreaseRate_rate (a : AdaptiveRateLimiter) (now : ℚ) :
    (a.decreaseRate now).current_rate
      = max a.min_rate (a.current_rate * a.decrease_factor) := by
  simp only [AdaptiveRateLimiter.decreaseRate, AdaptiveRateLimiter.updateLimiter]
  split <;> rfl

/-- Helper: `_decrease_rate` does not touch the success counter. -/
theorem decreaseRate_counter (a : AdaptiveRateLimiter) (now : ℚ) :
    (a.decreaseRate now).consecutive_successes = a.consecutive_successes := by
  simp only [AdaptiveRateLimiter.decreaseRate, AdaptiveRateLimiter.updateLimiter]
  split <;> rfl

/-- Helper: below the threshold, `on_success` only increments the
counter. -/
theorem onSuccess_small (a : AdaptiveRateLimiter) (now : ℚ)
    (h : a.consecutive_successes + 1 < 10) :
    a.onSuccess now
      = { a with consecutive_successes := a.consecutive_successes + 1 } := by
  unfold AdaptiveRateLimiter.onSuccess
  rw [if_neg]
  show ¬ (10 ≤ a.consecutive_successes + 1)
  omega

/-- Helper: from a zero counter, `k ≤ 9` `on_success` calls leave the
state unchanged except for the counter at `k`. -/
theorem applySuccesses_small (a : AdaptiveRateLimiter) (now : ℚ) :
    ∀ k, k ≤ 9 → a.consecutive_successes = 0 →
    a.applySuccesses now k = { a with consecutive_successes := k } := by
  intro k
  induction k with
  | zero =>
    intro _ hc
    show a = { a with consecutive_successes := 0 }
    cases a
    simp_all
  | succ k ih =>
    intro hk hc
    show (a.applySuccesses now k).onSuccess now = _
    rw [ih (by omega) hc]
    have h : ({ a with consecutive_successes := k } :
        AdaptiveRateLimiter).consecutive_successes + 1 < 10 := by
      show k + 1 < 10
      omega
    rw [onSuccess_small _ now h]

/-- C7: from a zero success counter and a rate within
`[min_rate, max_rate]` (with `0 ≤ min_rate`, `increase_factor > 1`,
`decrease_factor < 1`), ten consecutive `on_success` calls multiply
`current_rate` by exactly `increase_factor` clamped to `max_rate` and
reset the counter to 0; a single `on_rate_limit` call multiplies
`current_rate` by `decrease_factor` clamped to `min_rate` and resets the
counter to 0; both results stay within `[min_rate, max_rate]`. -/
theorem adaptive_rate_limiter_spec (a : AdaptiveRateLimiter) (now : ℚ)
    (hc : a.consecutive_successes = 0)
    (hm0 : 0 ≤ a.min_rate) (hmc : a.min_rate ≤ a.current_rate)
    (hcM : a.current_rate ≤ a.max_rate)
    (hinc : 1 < a.increase_factor) (hdec : a.decrease_factor < 1) :
    ((a.applySuccesses now 10).current_rate
        = min a.max_rate (a.current_rate * a.increase_factor)) ∧
    ((a.applySuccesses now 10).consecutive_successes = 0) ∧
    (a.min_rate ≤ (a.applySuccesses now 10).current_rate) ∧
    ((a.applySuccesses now 10).current_rate ≤ a.max_rate) ∧
    ((a.onRateLimit now).current_rate
        = max a.min_rate (a.current_rate * a.decrease_factor)) ∧
    ((a.onRateLimit now).consecutive_successes = 0) ∧
    (a.min_rate ≤ (a.onRateLimit now).current_rate) ∧
    ((a.onRateLimit now).current_rate ≤ a.max_rate) := by
  have hc0 : 0 ≤ a.current_rate := le_trans hm0 hmc
  have hmM : a.min_rate ≤ a.max_rate := le_trans hmc hcM
  have h9 : a.applySuccesses now 9 = { a with consecutive_successes := 9 } :=
    applySuccesses_small a now 9 (by omega) hc
  have h10 : a.applySuccesses now 10
      = ({ a with consecutive_successes := 9 }).onSuccess now := by
    show (a.applySuccesses now 9).onSuccess now = _
    rw [h9]
  have hsucc : ({ a with consecutive_successes := 9 }).onSuccess now
      = { ({ a with consecutive_successes := 10 }).increaseRate now with
          consecutive_successes := 0 } := by
    unfold AdaptiveRateLimiter.onSuccess
    rw [if_pos]
    show (10 : ℕ) ≤ 9 + 1
    omega
  have hrate10 : (a.applySuccesses now 10).current_rate
      = min a.max_rate (a.current_rate * a.increase_factor) := by
    rw [h10, hsucc]
    show (({ a with consecutive_successes := 10 }).increaseRate now).current_rate = _
    rw [increaseRate_rate]
  have hcount10 : (a.applySuccesses now 10).consecutive_successes = 0 := by
    rw [h10, hsucc]
  have hratedec : (a.onRateLimit now).current_rate
      = max a.min_rate (a.current_rate * a.decrease_factor) := by
    unfold AdaptiveRateLimiter.onRateLimit
    rw [decreaseRate_rate]
  have hcountdec : (a.onRateLimit now).consecutive_successes = 0 := by
    unfold AdaptiveRateLimiter.onRateLimit
    rw [decreaseRate_counter]
  have hincmul : a.current_rate ≤ a.current_rate * a.increase_factor := by
    nlinarith
  have hdecmul : a.current_rate * a.decrease_factor ≤ a.current_rate := by
    nlinarith
  refine ⟨hrate10, hcount10, ?_, ?_, hratedec, hcountdec, ?_, ?_⟩
  · rw [hrate10]; exact le_min hmM (le_trans hmc hincmul)
  · rw [hrate10]; exact min_le_left _ _
  · rw [hratedec]; exact le_max_left _ _
  · rw [hratedec]; exact max_le hmM (le_trans hdecmul hcM)

/-- Witness for C7 on `AdaptiveRateLimiter(initial_rate=10, min_rate=1,
max_rate=100, increase_factor=1.1, decrease_factor=0.5)`. -/
theorem adaptive_rate_limiter_spec_witness :
    ((AdaptiveRateLimiter.init 10 1 100 (11/10) (1/2) 0).consecutive_successes = 0) ∧
    ((0 : ℚ) ≤ (AdaptiveRateLimiter.init 10 1 100 (11/10) (1/2) 0).min_rate) ∧
    ((AdaptiveRateLimiter.init 10 1 100 (11/10) (1/2) 0).min_rate
      ≤ (AdaptiveRateLimiter.init 10 1 100 (11/10) (1/2) 0).current_rate) ∧
    ((AdaptiveRateLimiter.init 10 1 100 (11/10) (1/2) 0).current_rate
      ≤ (AdaptiveRateLimiter.init 10 1 100 (11/10) (1/2) 0).max_rate) ∧
    ((1 : ℚ) < (AdaptiveRateLimiter.init 10 1 100 (11/10) (1/2) 0).increase_factor) ∧
    ((AdaptiveRateLimiter.init 10 1 100 (11/10) (1/2) 0).decrease_factor < 1) ∧
    (((AdaptiveRateLimiter.init 10 1 100 (11/10) (1/2) 0).applySuccesses 0 10).current_rate
      = min (AdaptiveRateLimiter.init 10 1 100 (11/10) (1/2) 0).max_rate
          ((AdaptiveRateLimiter.init 10 1 100 (11/10) (1/2) 0).current_rate
            * (AdaptiveRateLimiter.init 10 1 100 (11/10) (1/2) 0).increase_factor)) :=
  ⟨by norm_num [AdaptiveRateLimiter.init], by norm_num [AdaptiveRateLimiter.init],
   by norm_num [AdaptiveRateLimiter.init], by norm_num [AdaptiveRateLimiter.init],
   by norm_num [AdaptiveRateLimiter.init], by norm_num [AdaptiveRateLimiter.init],
   (adaptive_rate_limiter_spec (AdaptiveRateLimiter.init 10 1 100 (11/10) (1/2) 0) 0
     (by norm_num [AdaptiveRateLimiter.init]) (by norm_num [AdaptiveRateLimiter.init])
     (by norm_num [AdaptiveRateLimiter.init]) (by norm_num [AdaptiveRateLimiter.init])
     (by norm_num [AdaptiveRateLimiter.init]) (by norm_num [AdaptiveRateLimiter.init])).1⟩

/-- Helper: `int()` truncation sends a float in `[0, 1)` to `0`. -/
theorem pyInt_eq_zero (q : ℚ) (h0 : 0 ≤ q) (h1 : q < 1) : pyInt q = 0 := by
  unfold pyInt
  have hnum : 0 ≤ q.num := Rat.num_nonneg.mpr h0
  have hlt : q.num < (q.den : ℤ) := Rat.lt_one_iff_num_lt_denom.mp h1
  obtain ⟨m, hm⟩ := Int.eq_ofNat_of_zero_le hnum
  rw [hm]
  have hmd : m < q.den := by omega
  show ((m : ℤ)).tdiv ((q.den : ℕ) : ℤ) = 0
  rw [← Int.ofNat_tdiv]
  simp [Nat.div_eq_of_lt hmd]

/-- Helper: `_decrease_rate` leaves the configuration parameters alone. -/
theorem decreaseRate_params (a : AdaptiveRateLimiter) (now : ℚ) :
    (a.decreaseRate now).min_rate = a.min_rate ∧
    (a.decreaseRate now).decrease_factor = a.decrease_factor := by
  simp only [AdaptiveRateLimiter.decreaseRate, AdaptiveRateLimiter.updateLimiter]
  split <;> exact ⟨rfl, rfl⟩

/-- Helper: `on_rate_limit` sets the rate to
`max(min_rate, current_rate * decrease_factor)`. -/
theorem onRateLimit_rate (a : AdaptiveRateLimiter) (now : ℚ) :
    (a.onRateLimit now).current_rate
      = max a.min_rate (a.current_rate * a.decrease_factor) := by
  unfold AdaptiveRateLimiter.onRateLimit
  rw [decreaseRate_rate]

/-- Helper: `on_rate_limit` leaves the configuration parameters alone. -/
theorem onRateLimit_params (a : AdaptiveRateLimiter) (now : ℚ) :
    (a.onRateLimit now).min_rate = a.min_rate ∧
    (a.onRateLimit now).decrease_factor = a.decrease_factor := by
  unfold AdaptiveRateLimiter.onRateLimit
  exact decreaseRate_params _ now

/-- Helper: the configuration parameters survive any number of
`on_rate_limit` calls. -/
theorem applyRateLimits_params (a : AdaptiveRateLimiter) (now : ℚ) :
    ∀ k, (a.applyRateLimits now k).min_rate = a.min_rate ∧
      (a.applyRateLimits now k).decrease_factor = a.decrease_factor := by
  intro k
  induction k with
  | zero => exact ⟨rfl, rfl⟩
  | succ k ih =>
    refine ⟨?_, ?_⟩
    · show ((a.applyRateLimits now k).onRateLimit now).min_rate = _
      rw [(onRateLimit_params _ now).1, ih.1]
    · show ((a.applyRateLimits now k).onRateLimit now).decrease_factor = _
      rw [(onRateLimit_params _ now).2, ih.2]

/-- Helper: closed form of the rate after `k` `on_rate_limit` calls:
`max(min_rate, current_rate * decrease_factor ^ k)`. -/
theorem applyRateLimits_rate (a : AdaptiveRateLimiter) (now : ℚ)
    (hd0 : 0 ≤ a.decrease_factor) (hd1 : a.decrease_factor ≤ 1)
    (hm0 : 0 ≤ a.min_rate) (hmc : a.min_rate ≤ a.current_rate) :
    ∀ k, (a.applyRateLimits now k).current_rate
      = max a.min_rate (a.current_rate * a.decrease_factor ^ k) := by
  intro k
  induction k with
  | zero =>
    show a.current_rate = _
    rw [pow_zero, mul_one, max_eq_right hmc]
  | succ k ih =>
    show ((a.applyRateLimits now k).onRateLimit now).current_rate = _
    rw [onRateLimit_rate, (applyRateLimits_params a now k).1,
      (applyRateLimits_params a now k).2, ih]
    rw [max_mul_of_nonneg _ _ hd0, ← max_assoc]
    have : max a.min_rate (a.min_rate * a.decrease_factor) = a.min_rate :=
      max_eq_left (mul_le_of_le_one_right hm0 hd1)
    rw [this, mul_assoc, ← pow_succ]

/-- C10: `acquire` is not total for a zero-rate limiter. With
`min_rate < 1` (and a positive decreasing factor below 1), enough
`on_rate_limit` calls drive `int(current_rate)` to 0; a limiter rebuilt at
such a rate has `max_requests = 0`; an `acquire` iteration that finds
insufficient tokens on a `max_requests = 0` limiter raises
`ZeroDivisionError` computing the wait time; and with `max_requests ≠ 0`
the wait-time computation never raises. -/
theorem zero_rate_acquire_hazard :
    (∀ (a : AdaptiveRateLimiter) (now : ℚ),
       0 ≤ a.min_rate → a.min_rate < 1 → a.min_rate ≤ a.current_rate →
       0 ≤ a.decrease_factor → a.decrease_factor < 1 →
       ∃ k, pyInt ((a.applyRateLimits now k).current_rate) = 0) ∧
    (∀ (a : AdaptiveRateLimiter) (now : ℚ),
       pyInt a.current_rate = 0 →
       (a.updateLimiter now).limiter.max_requests = 0) ∧
    (∀ (s : RateLimiter) (n now : ℚ),
       s.max_requests = 0 → ¬ (n ≤ (s.refill now).tokens) →
       s.acquireStep n now = .divErr) ∧
    (∀ (s : RateLimiter) (n now : ℚ),
       s.max_requests ≠ 0 → s.acquireStep n now ≠ .divErr) := by
  refine ⟨?_, ?_, ?_, ?_⟩
  · intro a now hm0 hm1 hmc hd0 hd1
    have hr0 : 0 ≤ a.current_rate := le_trans hm0 hmc
    have hpos : (0 : ℚ) < 1 / (a.current_rate + 1) := by positivity
    obtain ⟨k, hk⟩ := exists_pow_lt_of_lt_one hpos hd1
    refine ⟨k, ?_⟩
    have hrk : (a.applyRateLimits now k).current_rate
        = max a.min_rate (a.current_rate * a.decrease_factor ^ k) :=
      applyRateLimits_rate a now hd0 (le_of_lt hd1) hm0 hmc k
    have hsm : a.current_rate * a.decrease_factor ^ k < 1 := by
      have h1 : a.current_rate * a.decrease_factor ^ k
          ≤ a.current_rate * (1 / (a.current_rate + 1)) :=
        mul_le_mul_of_nonneg_left (le_of_lt hk) hr0
      have h2 : a.current_rate * (1 / (a.current_rate + 1)) < 1 := by
        rw [mul_one_div, div_lt_one (by linarith)]
        linarith
      linarith
    rw [hrk]
    apply pyInt_eq_zero
    · exact le_trans hm0 (le_max_left _ _)
    · exact max_lt hm1 hsm
  · intro a now h
    show (RateLimiter.init (pyInt a.current_rate) 1
        (some (pyInt (a.current_rate * 2))) now).max_requests = 0
    simp [RateLimiter.init, h]
  · intro s n now hz hnt
    simp only [RateLimiter.acquireStep]
    rw [if_neg hnt, if_pos hz]
  · intro s n now hz
    by_cases hco : n ≤ (s.refill now).tokens
    · simp only [RateLimiter.acquireStep]
      rw [if_pos hco]
      intro h
      cases h
    · simp only [RateLimiter.acquireStep]
      rw [if_neg hco, if_neg hz]
      intro h
      cases h

/-- Witness for C10: a concrete adaptive limiter with `min_rate = 1/2`,
a state whose truncated rate is zero, a zero-rate limiter short of
tokens, and a ten-per-second limiter. -/
theorem zero_rate_acquire_hazard_witness :
    (∃ k, pyInt (((AdaptiveRateLimiter.init 10 (1/2) 100 (11/10) (1/2) 0).applyRateLimits
        0 k).current_rate) = 0) ∧
    ((((AdaptiveRateLimiter.init 0 0 0 0 0 0).updateLimiter 0).limiter).max_requests = 0) ∧
    (RateLimiter.acquireStep ⟨0, 1, 1, 0, 0⟩ 1 0 = .divErr) ∧
    (RateLimiter.acquireStep ⟨10, 1, 20, 20, 0⟩ 1 0 ≠ .divErr) :=
  ⟨zero_rate_acquire_hazard.1 (AdaptiveRateLimiter.init 10 (1/2) 100 (11/10) (1/2) 0) 0
     (by norm_num [AdaptiveRateLimiter.init]) (by norm_num [AdaptiveRateLimiter.init])
     (by norm_num [AdaptiveRateLimiter.init]) (by norm_num [AdaptiveRateLimiter.init])
     (by norm_num [AdaptiveRateLimiter.init]),
   zero_rate_acquire_hazard.2.1 (AdaptiveRateLimiter.init 0 0 0 0 0 0) 0 rfl,
   zero_rate_acquire_hazard.2.2.1 ⟨0, 1, 1, 0, 0⟩ 1 0 rfl
     (by norm_num [RateLimiter.refill]),
   zero_rate_acquire_hazard.2.2.2 ⟨10, 1, 20, 20, 0⟩ 1 0 (by norm_num)⟩

/-- C2 counterexample: `update_farm_description` called for an id the
store has never seen (current status neither Pending nor anything else)
does not fail with a Conflict error and does not leave the state
unchanged: it returns `True` and adds the id to the Processed set. -/
theorem update_description_counterexample :
    ((StoreState.empty.updateFarmDescription "f1" "d" 0).1 = true) ∧
    ((StoreState.empty.updateFarmDescription "f1" "d" 0).2.processed
      ≠ StoreState.empty.processed) := by
  constructor
  · rfl
  · show insert "f1" (∅ : Finset String) ≠ ∅
    exact Finset.insert_ne_empty _ _

/-- C2 amended: `update_farm_description` performs no status check at
all. For every store, id and description it returns `True` and, in one
atomic pipeline, overwrites the description and `updatedAt` fields, adds
the id to Processed and removes it from NeedsDescription — regardless of
the item's current status — while every other id and the `farms:all` and
`farms:failed` sets are untouched. -/
theorem update_description_unconditional (s : StoreState) (fid d : String)
    (now : ℚ) (k : String) (hk : k ≠ fid) :
    (s.updateFarmDescription fid d now).1 = true ∧
    fid ∈ (s.updateFarmDescription fid d now).2.processed ∧
    fid ∉ (s.updateFarmDescription fid d now).2.needsDesc ∧
    (s.updateFarmDescription fid d now).2.descField fid = some d ∧
    (s.updateFarmDescription fid d now).2.updatedAtField fid = some now ∧
    (s.updateFarmDescription fid d now).2.allSet = s.allSet ∧
    (s.updateFarmDescription fid d now).2.failed = s.failed ∧
    (s.updateFarmDescription fid d now).2.descField k = s.descField k ∧
    (s.updateFarmDescription fid d now).2.updatedAtField k = s.updatedAtField k ∧
    (k ∈ (s.updateFarmDescription fid d now).2.processed ↔ k ∈ s.processed) ∧
    (k ∈ (s.updateFarmDescription fid d now).2.needsDesc ↔ k ∈ s.needsDesc) := by
  refine ⟨rfl, ?_, ?_, ?_, ?_, rfl, rfl, ?_, ?_, ?_, ?_⟩
  · exact Finset.mem_insert_self _ _
  · exact Finset.not_mem_erase _ _
  · show (if fid = fid then some d else s.descField fid) = some d
    rw [if_pos rfl]
  · show (if fid = fid then some now else s.updatedAtField fid) = some now
    rw [if_pos rfl]
  · show (if k = fid then some d else s.descField k) = s.descField k
    rw [if_neg hk]
  · show (if k = fid then some now else s.updatedAtField k) = s.updatedAtField k
    rw [if_neg hk]
  · show k ∈ insert fid s.processed ↔ k ∈ s.processed
    rw [Finset.mem_insert]
    simp [hk]
  · show k ∈ s.needsDesc.erase fid ↔ k ∈ s.needsDesc
    rw [Finset.mem_erase]
    simp [hk]

/-- Witness for the amended C2 on the empty store, id `"f1"` and
bystander id `"g"`. -/
theorem update_description_unconditional_witness :
    (StoreState.empty.updateFarmDescription "f1" "d" 0).1 = true ∧
    "f1" ∈ (StoreState.empty.updateFarmDescription "f1" "d" 0).2.processed ∧
    "f1" ∉ (StoreState.empty.updateFarmDescription "f1" "d" 0).2.needsDesc ∧
    (StoreState.empty.updateFarmDescription "f1" "d" 0).2.descField "f1" = some "d" ∧
    (StoreState.empty.updateFarmDescription "f1" "d" 0).2.updatedAtField "f1" = some 0 ∧
    (StoreState.empty.updateFarmDescription "f1" "d" 0).2.allSet = StoreState.empty.allSet ∧
    (StoreState.empty.updateFarmDescription "f1" "d" 0).2.failed = StoreState.empty.failed ∧
    (StoreState.empty.updateFarmDescription "f1" "d" 0).2.descField "g"
      = StoreState.empty.descField "g" ∧
    (StoreState.empty.updateFarmDescription "f1" "d" 0).2.updatedAtField "g"
      = StoreState.empty.updatedAtField "g" ∧
    ("g" ∈ (StoreState.empty.updateFarmDescription "f1" "d" 0).2.processed
      ↔ "g" ∈ StoreState.empty.processed) ∧
    ("g" ∈ (StoreState.empty.updateFarmDescription "f1" "d" 0).2.needsDesc
      ↔ "g" ∈ StoreState.empty.needsDesc) :=
  update_description_unconditional StoreState.empty "f1" "d" 0 "g" (by decide)

/-- Helper: `save_farms_batch` leaves `farms:failed` alone and, when the
saved records carry pairwise distinct fresh ids, preserves that Processed
and NeedsDescription are disjoint subsets of the known ids whose
cardinalities sum to at most the number of known ids. -/
theorem saveFarmsBatch_partition (farms : List FarmRecord) :
    ∀ s : StoreState,
    (farms.filterMap FarmRecord.getId).Nodup →
    (∀ i ∈ farms.filterMap FarmRecord.getId, i ∉ s.allSet) →
    s.processed ⊆ s.allSet → s.needsDesc ⊆ s.allSet →
    Disjoint s.processed s.needsDesc →
    s.processed.card + s.needsDesc.card ≤ s.allSet.card →
    (s.saveFarmsBatch farms).failed = s.failed ∧
    (s.saveFarmsBatch farms).processed ⊆ (s.saveFarmsBatch farms).allSet ∧
    (s.saveFarmsBatch farms).needsDesc ⊆ (s.saveFarmsBatch farms).allSet ∧
    Disjoint (s.saveFarmsBatch farms).processed (s.saveFarmsBatch farms).needsDesc ∧
    (s.saveFarmsBatch farms).processed.card + (s.saveFarmsBatch farms).needsDesc.card
      ≤ (s.saveFarmsBatch farms).allSet.card := by
  induction farms with
  | nil =>
    intro s _ _ h1 h2 h3 h4
    exact ⟨rfl, h1, h2, h3, h4⟩
  | cons f fs ih =>
    intro s hnd hfresh h1 h2 h3 h4
    have hbatch : s.saveFarmsBatch (f :: fs) = (s.saveOne f).saveFarmsBatch fs := rfl
    rw [hbatch]
    cases hgid : f.getId with
    | none =>
      have hfm : (f :: fs).filterMap FarmRecord.getId
          = fs.filterMap FarmRecord.getId := by
        simp [List.filterMap_cons, hgid]
      rw [hfm] at hnd hfresh
      have hsave : s.saveOne f = s := by
        simp [StoreState.saveOne, hgid]
      rw [hsave]
      exact ih s hnd hfresh h1 h2 h3 h4
    | some fid =>
      have hfm : (f :: fs).filterMap FarmRecord.getId
          = fid :: fs.filterMap FarmRecord.getId := by
        simp [List.filterMap_cons, hgid]
      rw [hfm] at hnd hfresh
      have hndc := List.nodup_cons.mp hnd
      have hfreshfid : fid ∉ s.allSet := hfresh fid (List.mem_cons_self _ _)
      have hP : fid ∉ s.processed := fun hm => hfreshfid (h1 hm)
      have hN : fid ∉ s.needsDesc := fun hm => hfreshfid (h2 hm)
      have hall : (s.saveOne f).allSet = insert fid s.allSet := by
        simp [StoreState.saveOne, hgid]
      have hfail : (s.saveOne f).failed = s.failed := by
        simp [StoreState.saveOne, hgid]
      have hproc : (s.saveOne f).processed
          = if f.hasDescription then insert fid s.processed else s.processed := by
        simp [StoreState.saveOne, hgid]
      have hneed : (s.saveOne f).needsDesc
          = if f.hasDescription then s.needsDesc
            else if usableWebsite (f.website.getD "") then insert fid s.needsDesc
            else s.needsDesc := by
        simp [StoreState.saveOne, hgid]
      have hfreshfs : ∀ i ∈ fs.filterMap FarmRecord.getId,
          i ∉ (s.saveOne f).allSet := by
        intro i hi
        rw [hall, Finset.mem_insert]
        push_neg
        refine ⟨fun he => hndc.1 (he ▸ hi), hfresh i (List.mem_cons_of_mem _ hi)⟩
      have hcardall : (s.saveOne f).allSet.card = s.allSet.card + 1 := by
        rw [hall, Finset.card_insert_of_not_mem hfreshfid]
      have hPA : (s.saveOne f).processed ⊆ (s.saveOne f).allSet := by
        rw [hall, hproc]
        by_cases hd : f.hasDescription
        · rw [if_pos hd]; exact Finset.insert_subset_insert _ h1
        · rw [if_neg hd]; exact h1.trans (Finset.subset_insert _ _)
      have hNA : (s.saveOne f).needsDesc ⊆ (s.saveOne f).allSet := by
        rw [hall, hneed]
        by_cases hd : f.hasDescription
        · rw [if_pos hd]; exact h2.trans (Finset.subset_insert _ _)
        · rw [if_neg hd]
          by_cases hw : usableWebsite (f.website.getD "")
          · rw [if_pos hw]; exact Finset.insert_subset_insert _ h2
          · rw [if_neg hw]; exact h2.trans (Finset.subset_insert _ _)
      have hdisj : Disjoint (s.saveOne f).processed (s.saveOne f).needsDesc := by
        rw [hproc, hneed]
        by_cases hd : f.hasDescription
        · rw [if_pos hd, if_pos hd]
          exact Finset.disjoint_insert_left.mpr ⟨hN, h3⟩
        · rw [if_neg hd, if_neg hd]
          by_cases hw : usableWebsite (f.website.getD "")
          · rw [if_pos hw]
            exact Finset.disjoint_insert_right.mpr ⟨hP, h3⟩
          · rw [if_neg hw]; exact h3
      have hcard : (s.saveOne f).processed.card + (s.saveOne f).needsDesc.card
          ≤ (s.saveOne f).allSet.card := by
        rw [hproc, hneed, hcardall]
        by_cases hd : f.hasDescription
        · rw [if_pos hd, if_pos hd, Finset.card_insert_of_not_mem hP]
          omega
        · rw [if_neg hd, if_neg hd]
          by_cases hw : usableWebsite (f.website.getD "")
          · rw [if_pos hw, Finset.card_insert_of_not_mem hN]
            omega
          · rw [if_neg hw]
            omega
      have := ih (s.saveOne f) hndc.2 hfreshfs hPA hNA hdisj hcard
      exact ⟨by rw [this.1, hfail], this.2⟩

/-- C1 counterexample: importing a snapshot holding the single record
`{id: "f1"}` — no description, no website — leaves `"f1"` in the set of
all known ids but in none of the Processed, Failed, NeedsDescription
index sets, so the three index-set sizes sum to 0 while there is 1 known
id: the partition invariant does not hold after import. -/
theorem import_partition_counterexample :
    (StoreState.empty.importFromJson [inconsistentRecord]).processed.card
      + (StoreState.empty.importFromJson [inconsistentRecord]).failed.card
      + (StoreState.empty.importFromJson [inconsistentRecord]).needsDesc.card
      ≠ (StoreState.empty.importFromJson [inconsistentRecord]).allSet.card := by
  decide

/-- C1 amended: after a snapshot import of records with pairwise distinct
ids, `farms:failed` is empty, Processed and NeedsDescription are disjoint
subsets of the known ids, and the three index-set sizes sum to *at most*
the number of known ids — equality can fail, because a record with no
description and no usable website is saved into no index set. -/
theorem import_partition_amended (s : StoreState) (farms : List FarmRecord)
    (hnodup : (farms.filterMap FarmRecord.getId).Nodup) :
    (s.importFromJson farms).failed = ∅ ∧
    (s.importFromJson farms).processed ⊆ (s.importFromJson farms).allSet ∧
    (s.importFromJson farms).needsDesc ⊆ (s.importFromJson farms).allSet ∧
    Disjoint (s.importFromJson farms).processed (s.importFromJson farms).needsDesc ∧
    (s.importFromJson farms).processed.card + (s.importFromJson farms).failed.card
        + (s.importFromJson farms).needsDesc.card
      ≤ (s.importFromJson farms).allSet.card := by
  have h := saveFarmsBatch_partition farms s.clearAllData hnodup
    (fun i _ => Finset.not_mem_empty i)
    (Finset.empty_subset _)
    (Finset.empty_subset _)
    (Finset.disjoint_empty_left _)
    (by exact Nat.le.refl)
  have hfail : (s.importFromJson farms).failed = ∅ := by
    show (s.clearAllData.saveFarmsBatch farms).failed = ∅
    rw [h.1]
    rfl
  refine ⟨hfail, h.2.1, h.2.2.1, h.2.2.2.1, ?_⟩
  rw [hfail]
  have hc := h.2.2.2.2
  simp only [Finset.card_empty]
  show (s.clearAllData.saveFarmsBatch farms).processed.card + 0
      + (s.clearAllData.saveFarmsBatch farms).needsDesc.card
    ≤ (s.clearAllData.saveFarmsBatch farms).allSet.card
  omega

/-- Witness for the amended C1: importing the five-farm demo snapshot
(distinct ids) into the empty store. -/
theorem import_partition_amended_witness :
    ((demoFarms.filterMap FarmRecord.getId).Nodup) ∧
    ((StoreState.empty.importFromJson demoFarms).failed = ∅ ∧
     (StoreState.empty.importFromJson demoFarms).processed
       ⊆ (StoreState.empty.importFromJson demoFarms).allSet ∧
     (StoreState.empty.importFromJson demoFarms).needsDesc
       ⊆ (StoreState.empty.importFromJson demoFarms).allSet ∧
     Disjoint (StoreState.empty.importFromJson demoFarms).processed
       (StoreState.empty.importFromJson demoFarms).needsDesc ∧
     (StoreState.empty.importFromJson demoFarms).processed.card
         + (StoreState.empty.importFromJson demoFarms).failed.card
         + (StoreState.empty.importFromJson demoFarms).needsDesc.card
       ≤ (StoreState.empty.importFromJson demoFarms).allSet.card) :=
  ⟨by decide, import_partition_amended StoreState.empty demoFarms (by decide)⟩

/-- Helper: the per-farm save step reads only the four index sets, so two
stores with equal index sets keep equal index sets. -/
theorem sets_saveOne_congr (s s' : StoreState) (f : FarmRecord)
    (h : s.sets = s'.sets) : (s.saveOne f).sets = (s'.saveOne f).sets := by
  simp only [StoreState.sets, Prod.mk.injEq] at h ⊢
  obtain ⟨ha, hp, hf, hn⟩ := h
  cases hgid : f.getId with
  | none => simp [StoreState.saveOne, hgid, ha, hp, hf, hn]
  | some fid => simp [StoreState.saveOne, hgid, ha, hp, hf, hn]

/-- Helper: `save_farms_batch` on stores with equal index sets yields
equal index sets. -/
theorem sets_saveFarmsBatch_congr (farms : List FarmRecord) :
    ∀ s s' : StoreState, s.sets = s'.sets →
    (s.saveFarmsBatch farms).sets = (s'.saveFarmsBatch farms).sets := by
  induction farms with
  | nil => intro s s' h; exact h
  | cons f fs ih =>
    intro s s' h
    exact ih (s.saveOne f) (s'.saveOne f) (sets_saveOne_congr s s' f h)

/-- Helper: the status counts are a function of the four index sets. -/
theorem status_congr_of_sets (s s' : StoreState) (h : s.sets = s'.sets) :
    s.getPipelineStatus = s'.getPipelineStatus := by
  simp only [StoreState.sets, Prod.mk.injEq] at h
  obtain ⟨ha, hp, hf, hn⟩ := h
  simp [StoreState.getPipelineStatus, ha, hp, hf, hn]

/-- C9: snapshot import is idempotent — importing the same parsed
snapshot twice in succession leaves the `get_pipeline_status` counts
identical to what they were after the first import, because
`import_from_json` first clears every `farms:*` set and then rebuilds
them from the snapshot alone. -/
theorem import_idempotent (s : StoreState) (farms : List FarmRecord) :
    ((s.importFromJson farms).importFromJson farms).getPipelineStatus
      = (s.importFromJson farms).getPipelineStatus := by
  apply status_congr_of_sets
  apply sets_saveFarmsBatch_congr
  rfl

/-- Helper: the per-item counter increments are `(1, 0)` exactly when the
item's description generation succeeded, else `(0, 1)`. -/
theorem processOneFarm_counts (s : StoreState) (fid : String)
    (o : ItemOutcome) (now : ℚ) :
    (processOneFarm s fid o now).1
      = if o.isSuccess then (1, 0) else (0, 1) := by
  cases o <;> rfl

/-- Helper: the per-item body never touches `farms:failed`. -/
theorem processOneFarm_failed (s : StoreState) (fid : String)
    (o : ItemOutcome) (now : ℚ) :
    (processOneFarm s fid o now).2.failed = s.failed := by
  cases o <;> rfl

/-- Helper: the batch fold adds the number of successful items to the
success counter, the number of unsuccessful ones to the failure counter,
and leaves `farms:failed` untouched. -/
theorem batch_fold_spec (now : ℚ) (items : List (String × ItemOutcome)) :
    ∀ (a b : ℕ) (s : StoreState),
    ((items.foldl (batchStep now) ((a, b), s)).1.1
        = a + (items.filter (fun it => it.2.isSuccess)).length) ∧
    ((items.foldl (batchStep now) ((a, b), s)).1.2
        = b + (items.filter (fun it => !it.2.isSuccess)).length) ∧
    ((items.foldl (batchStep now) ((a, b), s)).2.failed = s.failed) := by
  induction items with
  | nil => intro a b s; exact ⟨by simp, by simp, rfl⟩
  | cons it rest ih =>
    intro a b s
    have hstep : batchStep now ((a, b), s) it
        = ((a + (if it.2.isSuccess then 1 else 0),
            b + (if it.2.isSuccess then 0 else 1)),
           (processOneFarm s it.1 it.2 now).2) := by
      simp only [batchStep]
      rw [processOneFarm_counts]
      by_cases h : it.2.isSuccess <;> simp [h]
    rw [List.foldl_cons, hstep]
    obtain ⟨c1, c2, c3⟩ := ih (a + (if it.2.isSuccess then 1 else 0))
      (b + (if it.2.isSuccess then 0 else 1)) ((processOneFarm s it.1 it.2 now).2)
    refine ⟨?_, ?_, by rw [c3, processOneFarm_failed]⟩
    · rw [c1, List.filter_cons]
      by_cases h : it.2.isSuccess <;> simp [h] <;> omega
    · rw [c2, List.filter_cons]
      by_cases h : it.2.isSuccess <;> simp [h] <;> omega

/-- C6 counterexample: over the demo batch of five items where item 3's
scrape fails permanently and the others succeed, `process_farm_batch`
returns the counts `{'success': 4, 'failed': 1}` — but the Failed index
set does not contain item 3's id: it is left exactly as it was (empty),
refuting that `listByStatus(Failed)` contains `"f3"` after the batch. -/
theorem batch_failed_set_counterexample :
    ((processFarmBatch demoStore demoItems 0).1 = (4, 1)) ∧
    ((processFarmBatch demoStore demoItems 0).2.failed = ∅) ∧
    ((processFarmBatch demoStore demoItems 0).2.failed ≠ {"f3"}) := by
  have h := batch_fold_spec 0 demoItems 0 0 demoStore
  have hfailbatch : (processFarmBatch demoStore demoItems 0).2.failed
      = demoStore.failed := h.2.2
  have hdemofail : demoStore.failed = ∅ := by
    show ((StoreState.empty.clearAllData).saveFarmsBatch demoFarms).failed = ∅
    rw [(saveFarmsBatch_partition demoFarms StoreState.empty.clearAllData
      (by decide) (fun i _ => Finset.not_mem_empty i) (Finset.empty_subset _)
      (Finset.empty_subset _) (Finset.disjoint_empty_left _)
      (by exact Nat.le.refl)).1]
    rfl
  constructor
  · have e1 : (processFarmBatch demoStore demoItems 0).1.1 = 4 := by
      rw [show (processFarmBatch demoStore demoItems 0).1.1
          = (demoItems.foldl (batchStep 0) ((0, 0), demoStore)).1.1 from rfl, h.1]
      decide
    have e2 : (processFarmBatch demoStore demoItems 0).1.2 = 1 := by
      rw [show (processFarmBatch demoStore demoItems 0).1.2
          = (demoItems.foldl (batchStep 0) ((0, 0), demoStore)).1.2 from rfl, h.2.1]
      decide
    exact Prod.ext e1 e2
  · refine ⟨hfailbatch.trans hdemofail, ?_⟩
    rw [hfailbatch.trans hdemofail]
    exact (Finset.singleton_ne_empty _).symm

/-- C6 amended: `process_farm_batch` never raises for an individual
item's failure — it is total, returns success/failure counts that
partition the batch (here: each item counts as a success exactly when its
generation step succeeded), and records failures only in the returned
counts: the Failed index set of the store is left exactly as it was. -/
theorem batch_counts_and_failed_untouched (s : StoreState)
    (items : List (String × ItemOutcome)) (now : ℚ) :
    ((processFarmBatch s items now).1.1
        = (items.filter (fun it => it.2.isSuccess)).length) ∧
    ((processFarmBatch s items now).1.2
        = (items.filter (fun it => !it.2.isSuccess)).length) ∧
    ((processFarmBatch s items now).1.1 + (processFarmBatch s items now).1.2
        = items.length) ∧
    ((processFarmBatch s items now).2.failed = s.failed) := by
  have h := batch_fold_spec now items 0 0 s
  have h1 : (processFarmBatch s items now).1.1
      = (items.filter (fun it => it.2.isSuccess)).length := by
    rw [show (processFarmBatch s items now).1.1
        = (items.foldl (batchStep now) ((0, 0), s)).1.1 from rfl, h.1]
    omega
  have h2 : (processFarmBatch s items now).1.2
      = (items.filter (fun it => !it.2.isSuccess)).length := by
    rw [show (processFarmBatch s items now).1.2
        = (items.foldl (batchStep now) ((0, 0), s)).1.2 from rfl, h.2.1]
    omega
  refine ⟨h1, h2, ?_, h.2.2⟩
  rw [h1, h2]
  simpa using (List.length_eq_length_filter_add
    (l := items) (fun it => it.2.isSuccess)).symm
